import Mathlib

/-!
# Omni-Agent core: shallow embedding and verification

This file embeds the core data model and operations of the Omni-Agent
multimodal gateway (trigger policy, session manager, STT keep-alive,
the gRPC unary `Process` handler, and the bidirectional `ProcessStream`
LLM worker) as executable Lean definitions, translated from the Python
source, and proves or refutes the specification claims about them.

Conventions:
* Times (`datetime.now`, `time.time`) are modelled as natural-number
  seconds passed explicitly to every operation that reads the clock.
* Python exceptions are modelled with `Except`/`Option` results; the
  outcomes of upstream calls (STT, LLM) are supplied as oracle arguments.
* Byte strings are modelled as `List Nat`.
-/

namespace OmniAgent

/-! ## String helpers

Executable models of Python's `str.strip()` and `str.upper()` (Lean's
built-in `String.trim`/`String.toUpper` are opaque to kernel evaluation,
so we work on the underlying character list). -/

/-- Python `str.strip()` on a character list: drop whitespace from both ends. -/
def stripChars (cs : List Char) : List Char :=
  ((cs.dropWhile Char.isWhitespace).reverse.dropWhile Char.isWhitespace).reverse

/-- Python `str.strip()`. -/
def strip (s : String) : String := String.mk (stripChars s.data)

/-- Python `str.upper()` (ASCII, which covers the "YES"/"NO" judge protocol). -/
def upper (s : String) : String := String.mk (s.data.map Char.toUpper)

/-! ## Perception events (src/orchestrator/events.py) -/

/-- `ModalityType` enum. -/
inductive ModalityType
  | text
  | audio
  | image
  | video
deriving DecidableEq

/-- `EventStage` enum.  The source member `PARTIAL` (an in-progress
recognition preview) is rendered here as `interim`; `FINAL` as `final`;
`ERROR` as `error`. -/
inductive EventStage
  | interim
  | final
  | error
deriving DecidableEq

/-- `PerceptionEvent` dataclass (confidence and timestamp are carried as
naturals; neither is read by the trigger policy). -/
structure PerceptionEvent where
  event_id : String
  modality : ModalityType
  stage : EventStage
  content : String
  confidence : Nat := 1
  timestamp : Nat := 0
deriving DecidableEq

/-! ## Task (src/orchestrator/task.py) — only the fields the trigger reads -/

/-- The slice of `Task` visible to `TriggerEngine`: `task_id` is used in log
lines and `instruction` in the judge prompt. -/
structure Task where
  task_id : String
  instruction : String
deriving DecidableEq

/-! ## Trigger engine (src/orchestrator/trigger.py) -/

/-- `TriggerEngine._is_actionable_speech`.  The judge LLM call is an oracle:
`Except.ok response` is the judge's reply text, `Except.error msg` is a raised
exception.  On success the decision is `response.strip().upper() == "YES"`;
on failure the source falls back to `len(event.content.strip()) > 5`. -/
def is_actionable_speech (judge : Except String String) (event : PerceptionEvent) : Bool :=
  match judge with
  | Except.ok response => (upper (strip response)) == "YES"
  | Except.error _ => decide ((strip event.content).length > 5)

/-- `TriggerEngine.should_invoke_agent`, linearizing the source's sequential
rule checks.  Rule 3's audio branch returns the judge verdict directly when
`use_llm_judge` is set; otherwise it returns true for non-blank content and
falls through to rule 4 (image) and the terminal `return False`. -/
def should_invoke_agent (use_llm_judge : Bool) (judge : Except String String)
    (_task : Task) (event : PerceptionEvent) : Bool :=
  if event.stage == EventStage.error then
    false
  else if event.modality == ModalityType.text && event.stage == EventStage.final then
    true
  else if event.modality == ModalityType.audio && event.stage == EventStage.final then
    if use_llm_judge then
      is_actionable_speech judge event
    else if decide ((strip event.content).length > 0) then
      true
    else if event.modality == ModalityType.image && event.stage == EventStage.final then
      true
    else
      false
  else if event.modality == ModalityType.image && event.stage == EventStage.final then
    true
  else
    false

/-- The rule table as the spec words it (used to compare the source's
rule-only decision against the specification). -/
def ruleOnlySpecTable (m : ModalityType) (s : EventStage) (trimmed : String) : Bool :=
  match m, s with
  | _, EventStage.error => false
  | _, EventStage.interim => false
  | ModalityType.text, EventStage.final => true
  | ModalityType.audio, EventStage.final => decide (trimmed.length > 0)
  | ModalityType.image, EventStage.final => true
  | ModalityType.video, EventStage.final => false

/-- C7: In rule-only mode `should_invoke_agent` equals the spec's rule table
on `(modality, stage, trim(content))`; in particular any two events agreeing
on those three values get the same decision, whatever the task. -/
theorem rule_only_trigger_spec :
    (∀ (t : Task) (j : Except String String) (e : PerceptionEvent),
      should_invoke_agent false j t e = ruleOnlySpecTable e.modality e.stage (strip e.content))
    ∧ (∀ (t₁ t₂ : Task) (j₁ j₂ : Except String String) (e₁ e₂ : PerceptionEvent),
      e₁.modality = e₂.modality → e₁.stage = e₂.stage → strip e₁.content = strip e₂.content →
      should_invoke_agent false j₁ t₁ e₁ = should_invoke_agent false j₂ t₂ e₂) := by
  constructor
  · intro t j e
    cases hm : e.modality <;> cases hs : e.stage <;>
      simp [should_invoke_agent, ruleOnlySpecTable, hm, hs]
  · intro t₁ t₂ j₁ j₂ e₁ e₂ hm hs hc
    cases h₁ : e₁.modality <;> cases h₂ : e₁.stage <;>
      simp [should_invoke_agent, h₁, h₂, ← hm, ← hs, hc, h₁ ▸ hm.symm, h₂ ▸ hs.symm]

/-- Witness for C7 at concrete inputs: two audio-final events with contents
`" hi"` and `"hi "` (equal trims) and different tasks decide identically. -/
theorem rule_only_trigger_spec_witness :
    should_invoke_agent false (Except.ok "YES") ⟨"t1", "i1"⟩
        { event_id := "e1", modality := ModalityType.audio, stage := EventStage.final,
          content := " hi" }
      = should_invoke_agent false (Except.error "down") ⟨"t2", "i2"⟩
        { event_id := "e2", modality := ModalityType.audio, stage := EventStage.final,
          content := "hi " } :=
  rule_only_trigger_spec.2 ⟨"t1", "i1"⟩ ⟨"t2", "i2"⟩ (Except.ok "YES") (Except.error "down")
    { event_id := "e1", modality := ModalityType.audio, stage := EventStage.final,
      content := " hi" }
    { event_id := "e2", modality := ModalityType.audio, stage := EventStage.final,
      content := "hi " }
    rfl rfl (by decide)

/-- Counterexample to C6 as stated: with the judge failing and an audio FINAL
event whose trimmed content `"hi"` has length 2 > 0, the source returns
`false` (its fallback threshold is length > 5, not > 0). -/
theorem judge_fallback_cex :
    should_invoke_agent true (Except.error "judge down") ⟨"t", "i"⟩
        { event_id := "e", modality := ModalityType.audio, stage := EventStage.final,
          content := "hi" }
      = false
    ∧ ((strip "hi").length > 0) := by
  constructor
  · decide
  · decide

/-- C6 (amended): in LLM-judge mode, when the judge call fails, the decision
for an audio FINAL event is `trim(content).length > 5` — a stricter fallback
than the rule-only mode's `> 0`. -/
theorem judge_fallback_rule (t : Task) (e : PerceptionEvent) (msg : String)
    (hm : e.modality = ModalityType.audio) (hs : e.stage = EventStage.final) :
    should_invoke_agent true (Except.error msg) t e = decide ((strip e.content).length > 5) := by
  simp [should_invoke_agent, is_actionable_speech, hm, hs]

/-- Witness for the amended C6: content `"hello!"` (6 chars) triggers. -/
theorem judge_fallback_rule_witness :
    should_invoke_agent true (Except.error "down") ⟨"t", "i"⟩
        { event_id := "e", modality := ModalityType.audio, stage := EventStage.final,
          content := "hello!" }
      = decide ((strip "hello!").length > 5) :=
  judge_fallback_rule ⟨"t", "i"⟩
    { event_id := "e", modality := ModalityType.audio, stage := EventStage.final,
      content := "hello!" }
    "down" rfl rfl

/-! ## Session data model (src/orchestrator/session.py) -/

/-- `SessionStatus` enum. -/
inductive SessionStatus
  | created
  | active
  | paused
  | closed
  | expired
deriving DecidableEq

/-- Orchestrator-level `SttConfig` dataclass. -/
structure SttSessionConfig where
  provider : String := "aliyun"
  model : String := "paraformer-realtime-v2"
  language : String := "zh-CN"
  sample_rate : Nat := 16000
  enable_punctuation : Bool := true
deriving DecidableEq

/-- Orchestrator-level `LlmConfig` dataclass (the floating-point
`temperature` field is not read by any claim and is left unmodelled). -/
structure LlmSessionConfig where
  provider : String := "qwen"
  model : String := "qwen-turbo"
  max_tokens : Nat := 2048
  system_message : Option String := none
deriving DecidableEq

/-- `SessionConfig` dataclass. -/
structure SessionConfig where
  stt : SttSessionConfig := {}
  llm : LlmSessionConfig := {}
  timeout_seconds : Nat := 3600
deriving DecidableEq

/-- `Session` dataclass (the `tasks`, `stats` and `metadata` fields are not
read by any claim about expiry or admission and are left out). -/
structure Session where
  session_id : String
  trace_id : String
  client_id : String
  config : SessionConfig
  status : SessionStatus
  created_at : Nat
  updated_at : Nat
  expires_at : Nat
deriving DecidableEq

/-- `Session.__post_init__`: a freshly constructed session (with
`expires_at=None`) gets `expires_at = created_at + timeout_seconds`. -/
def Session.make (session_id trace_id client_id : String) (config : SessionConfig)
    (status : SessionStatus) (now : Nat) : Session :=
  { session_id := session_id, trace_id := trace_id, client_id := client_id,
    config := config, status := status,
    created_at := now, updated_at := now,
    expires_at := now + config.timeout_seconds }

/-- `Session.is_expired`: `datetime.now() > expires_at` (strict). -/
def Session.is_expired (s : Session) (now : Nat) : Bool :=
  decide (now > s.expires_at)

/-- `Session.is_active`: ACTIVE and not expired. -/
def Session.is_active (s : Session) (now : Nat) : Bool :=
  s.status == SessionStatus.active && !(s.is_expired now)

/-- `Session.touch`: only refreshes `updated_at`. -/
def Session.touch (s : Session) (now : Nat) : Session :=
  { s with updated_at := now }

/-- `Session.close`: set CLOSED and touch. -/
def Session.close (s : Session) (now : Nat) : Session :=
  { s with status := SessionStatus.closed, updated_at := now }

/-- A session the periodic/GC sweep removes: expired or CLOSED. -/
def Session.removable (s : Session) (now : Nat) : Bool :=
  s.is_expired now || s.status == SessionStatus.closed

/-! ## SessionManager (src/orchestrator/session.py)

The `_sessions` dict is modelled as an insertion-ordered list keyed by
`session_id`; dict assignment is `upsertSession` (replace in place or
append), `del` is a keyed filter.  Fresh `uuid`/trace ids are supplied by
the caller. -/

/-- Python dict assignment `sessions[s.session_id] = s` on an
insertion-ordered table. -/
def upsertSession : List Session → Session → List Session
  | [], s => [s]
  | t :: ts, s =>
    if t.session_id == s.session_id then s :: ts else t :: upsertSession ts s

/-- `SessionManager` state. -/
structure SessionManager where
  sessions : List Session
  max_sessions : Nat := 1000
deriving DecidableEq

/-- `SessionManager.count`. -/
def SessionManager.count (m : SessionManager) : Nat :=
  m.sessions.length

/-- `SessionManager._cleanup_expired`: drop expired or CLOSED sessions. -/
def SessionManager.cleanup_expired (m : SessionManager) (now : Nat) : SessionManager :=
  { m with sessions := m.sessions.filter (fun s => !(s.removable now)) }

/-- `SessionManager.create`: when the table is full, run the sweep; if still
full raise `RuntimeError` (modelled as `Except.error`), else admit an ACTIVE
session.  The returned manager is the post-call table. -/
def SessionManager.create (m : SessionManager) (client_id session_id trace_id : String)
    (config : SessionConfig) (now : Nat) : Except String Session × SessionManager :=
  let m1 := if m.sessions.length ≥ m.max_sessions then m.cleanup_expired now else m
  if m1.sessions.length ≥ m.max_sessions then
    (Except.error "Max sessions limit reached", m1)
  else
    let s := Session.make session_id trace_id client_id config SessionStatus.active now
    (Except.ok s, { m1 with sessions := upsertSession m1.sessions s })

/-- `SessionManager.get`: look the session up; if expired, lazily promote its
stored status to EXPIRED. -/
def SessionManager.get (m : SessionManager) (session_id : String) (now : Nat) :
    Option Session × SessionManager :=
  match m.sessions.find? (fun s => s.session_id == session_id) with
  | none => (none, m)
  | some s =>
    if s.is_expired now then
      let s' := { s with status := SessionStatus.expired }
      (some s', { m with sessions := upsertSession m.sessions s' })
    else
      (some s, m)

/-- `SessionManager.get_active`: `get`, then keep only active sessions. -/
def SessionManager.get_active (m : SessionManager) (session_id : String) (now : Nat) :
    Option Session × SessionManager :=
  let r := m.get session_id now
  match r.1 with
  | some s => if s.is_active now then (some s, r.2) else (none, r.2)
  | none => (none, r.2)

/-- `SessionManager.close`. -/
def SessionManager.close (m : SessionManager) (session_id : String) (now : Nat) :
    Option Session × SessionManager :=
  match m.sessions.find? (fun s => s.session_id == session_id) with
  | none => (none, m)
  | some s =>
    let s' := s.close now
    (some s', { m with sessions := upsertSession m.sessions s' })

/-- `SessionManager.delete`. -/
def SessionManager.delete (m : SessionManager) (session_id : String) :
    Bool × SessionManager :=
  (m.sessions.any (fun s => s.session_id == session_id),
   { m with sessions := m.sessions.filter (fun s => !(s.session_id == session_id)) })

/-- States of the session table reachable from an empty manager through the
manager's public operations and the background sweep. -/
inductive SessionManager.Reachable : SessionManager → Prop
  | init (max_sessions : Nat) :
      SessionManager.Reachable { sessions := [], max_sessions := max_sessions }
  | create {m : SessionManager} (cid sid tid : String) (cfg : SessionConfig) (now : Nat) :
      SessionManager.Reachable m →
      SessionManager.Reachable (m.create cid sid tid cfg now).2
  | get {m : SessionManager} (sid : String) (now : Nat) :
      SessionManager.Reachable m → SessionManager.Reachable (m.get sid now).2
  | get_active {m : SessionManager} (sid : String) (now : Nat) :
      SessionManager.Reachable m → SessionManager.Reachable (m.get_active sid now).2
  | close {m : SessionManager} (sid : String) (now : Nat) :
      SessionManager.Reachable m → SessionManager.Reachable (m.close sid now).2
  | delete {m : SessionManager} (sid : String) :
      SessionManager.Reachable m → SessionManager.Reachable (m.delete sid).2
  | cleanup {m : SessionManager} (now : Nat) :
      SessionManager.Reachable m → SessionManager.Reachable (m.cleanup_expired now)

/-- `upsertSession` grows the table only when the key is absent. -/
theorem upsertSession_length (l : List Session) (s : Session) :
    (upsertSession l s).length
      = if l.any (fun t => t.session_id == s.session_id) then l.length else l.length + 1 := by
  induction l with
  | nil => simp [upsertSession]
  | cons t ts ih =>
    by_cases h : (t.session_id == s.session_id) = true
    · simp [upsertSession, h]
    · have h' : (t.session_id == s.session_id) = false := by simpa using h
      simp only [upsertSession, h', Bool.false_eq_true, if_false, List.length_cons]
      rw [ih]
      simp only [List.any_cons, h', Bool.false_or]
      by_cases h2 : (ts.any fun t => t.session_id == s.session_id) = true
      · simp [h2]
      · simp [h2]

/-- Replacing a session under a key that is already present preserves the
table size. -/
theorem upsertSession_length_same_key {l : List Session} {sid : String} {s s' : Session}
    (hf : l.find? (fun t => t.session_id == sid) = some s)
    (hid : s'.session_id = s.session_id) :
    (upsertSession l s').length = l.length := by
  rw [upsertSession_length, if_pos]
  refine List.any_eq_true.mpr ⟨s, List.mem_of_find?_eq_some hf, ?_⟩
  simp [hid]

/-- C5 invariant core: every reachable session table respects the
`max_sessions` bound. -/
theorem reachable_count_le {m : SessionManager}
    (h : SessionManager.Reachable m) : m.count ≤ m.max_sessions := by
  induction h with
  | init max_sessions => simp [SessionManager.count]
  | @create m cid sid tid cfg now _ ih =>
    unfold SessionManager.create
    set m1 := if m.sessions.length ≥ m.max_sessions then m.cleanup_expired now else m with hm1
    have hmax : m1.max_sessions = m.max_sessions := by
      rw [hm1]; split <;> rfl
    have hlen : m1.sessions.length ≤ m.sessions.length := by
      rw [hm1]; split
      · exact List.length_filter_le _ _
      · exact le_rfl
    by_cases hfull : m1.sessions.length ≥ m.max_sessions
    · simpa [hfull, SessionManager.count, hmax] using le_trans hlen ih
    · simp only [hfull, if_false, SessionManager.count]
      have : (upsertSession m1.sessions
          (Session.make sid tid cid cfg SessionStatus.active now)).length
          ≤ m1.sessions.length + 1 := by
        rw [upsertSession_length]; split <;> omega
      have hlt : m1.sessions.length < m.max_sessions := lt_of_not_ge hfull
      simp only [hmax]
      omega
  | @get m sid now _ ih =>
    unfold SessionManager.get
    cases hf : m.sessions.find? (fun s => s.session_id == sid) with
    | none => simpa using ih
    | some s =>
      by_cases hexp : s.is_expired now = true
      · have : ({ s with status := SessionStatus.expired } : Session).session_id
            = s.session_id := rfl
        simp only [hexp, if_true, SessionManager.count]
        exact le_trans (le_of_eq (upsertSession_length_same_key hf rfl)) ih
      · simp only [hexp, if_false]; simpa using ih
  | @get_active m sid now hr ih =>
    unfold SessionManager.get_active
    have hg : SessionManager.Reachable (m.get sid now).2 :=
      SessionManager.Reachable.get sid now hr
    cases hv : (m.get sid now).1 with
    | none =>
      simp only [hv]
      unfold SessionManager.get at hv ⊢
      cases hf : m.sessions.find? (fun s => s.session_id == sid) with
      | none => simpa using ih
      | some s =>
        rw [hf] at hv
        by_cases hexp : s.is_expired now = true
        · simp only [hexp, if_true, SessionManager.count]
          exact le_trans (le_of_eq (upsertSession_length_same_key hf rfl)) ih
        · simp only [hexp, if_false]; simpa using ih
    | some s =>
      simp only [hv]
      split
      all_goals {
        unfold SessionManager.get
        cases hf : m.sessions.find? (fun t => t.session_id == sid) with
        | none => simpa using ih
        | some t =>
          by_cases hexp : t.is_expired now = true
          · simp only [hexp, if_true, SessionManager.count]
            exact le_trans (le_of_eq (upsertSession_length_same_key hf rfl)) ih
          · simp only [hexp, if_false]; simpa using ih
      }
  | @close m sid now _ ih =>
    unfold SessionManager.close
    cases hf : m.sessions.find? (fun s => s.session_id == sid) with
    | none => simpa using ih
    | some s =>
      simp only [SessionManager.count]
      exact le_trans (le_of_eq (upsertSession_length_same_key hf rfl)) ih
  | @delete m sid _ ih =>
    simp only [SessionManager.delete, SessionManager.count]
    exact le_trans (List.length_filter_le _ _) ih
  | @cleanup m now _ ih =>
    simp only [SessionManager.cleanup_expired, SessionManager.count]
    exact le_trans (List.length_filter_le _ _) ih

/-- Did a Python call that may raise succeed? -/
def exceptOk {ε α : Type} : Except ε α → Bool
  | Except.ok _ => true
  | Except.error _ => false

/-- C5: every reachable session table has `count() ≤ max_sessions`; and under
that bound, `create` fails exactly when the table is full and no session is
expired or closed — and on failure the table is left unchanged. -/
theorem session_admission_bound :
    (∀ m : SessionManager, SessionManager.Reachable m → m.count ≤ m.max_sessions)
    ∧ (∀ (m : SessionManager) (cid sid tid : String) (cfg : SessionConfig) (now : Nat),
        m.count ≤ m.max_sessions →
        (exceptOk (m.create cid sid tid cfg now).1 = false ↔
          (m.count = m.max_sessions ∧ ∀ s ∈ m.sessions, s.removable now = false))
        ∧ (exceptOk (m.create cid sid tid cfg now).1 = false →
            (m.create cid sid tid cfg now).2 = m)) := by
  constructor
  · intro m h; exact reachable_count_le h
  · intro m cid sid tid cfg now hm
    unfold SessionManager.create
    by_cases hfull : m.sessions.length ≥ m.max_sessions
    · have heq : m.sessions.length = m.max_sessions := le_antisymm hm hfull
      simp only [hfull, if_true, SessionManager.cleanup_expired]
      by_cases hfail :
          (m.sessions.filter (fun s => !(s.removable now))).length ≥ m.max_sessions
      · have hsub : (m.sessions.filter (fun s => !(s.removable now))).Sublist m.sessions :=
          List.filter_sublist _
        have hlenle := hsub.length_le
        have hfeq : m.sessions.filter (fun s => !(s.removable now)) = m.sessions :=
          hsub.eq_of_length (le_antisymm hlenle (heq ▸ hfail))
        have hall : ∀ s ∈ m.sessions, s.removable now = false := by
          intro s hs
          have := List.filter_eq_self.mp hfeq s hs
          simpa using this
        refine ⟨⟨fun _ => ⟨heq ▸ rfl, hall⟩, fun _ => ?_⟩, fun _ => ?_⟩
        · simp [hfail, exceptOk]
        · simp only [hfail, if_true]
          rw [hfeq]
      · constructor
        · simp only [hfail, if_false]
          constructor
          · intro hc; exact absurd hc (by simp [exceptOk])
          · rintro ⟨hcount, hall⟩
            exfalso
            have hfeq : m.sessions.filter (fun s => !(s.removable now)) = m.sessions :=
              List.filter_eq_self.mpr (by intro s hs; simp [hall s hs])
            rw [hfeq] at hfail
            exact hfail hfull
        · simp only [hfail, if_false]
          intro hc; exact absurd hc (by simp [exceptOk])
    · have hlt : m.sessions.length < m.max_sessions := lt_of_not_ge hfull
      simp only [hfull, if_false]
      constructor
      · constructor
        · intro hc; exact absurd hc (by simp [exceptOk])
        · rintro ⟨hcount, -⟩
          exact absurd hcount (by simp [SessionManager.count]; omega)
      · intro hc; exact absurd hc (by simp [exceptOk])

/-- A demonstration session created at time 0 with a 3600 s timeout. -/
def demoSession : Session :=
  Session.make "s1" "t1" "c1" {} SessionStatus.active 0

/-- Witness for C5 at a concrete state: a full one-slot table whose only
session is active and unexpired rejects a second admission and is unchanged. -/
theorem session_admission_bound_witness :
    exceptOk (SessionManager.create
        { sessions := [demoSession], max_sessions := 1 } "c2" "s2" "t2" {} 5).1 = false
    ∧ (SessionManager.create
        { sessions := [demoSession], max_sessions := 1 } "c2" "s2" "t2" {} 5).2
      = { sessions := [demoSession], max_sessions := 1 } := by
  have h := session_admission_bound.2
    { sessions := [demoSession], max_sessions := 1 } "c2" "s2" "t2" {} 5 (by decide)
  have hfail : exceptOk (SessionManager.create
      { sessions := [demoSession], max_sessions := 1 } "c2" "s2" "t2" {} 5).1 = false :=
    h.1.mpr (by decide)
  exact ⟨hfail, h.2 hfail⟩

/-- A session whose 10-second lifetime starts at time 0 (so `expires_at = 10`). -/
def shortSession : Session :=
  Session.make "s1" "t1" "c1" { timeout_seconds := 10 } SessionStatus.active 0

/-- Counterexample to C4 as stated: at `now = expires_at` (10) the source still
reports the session active (`is_expired` uses a strict `>`), `get_active`
still returns it, and `get` does not promote it to EXPIRED — though the claim
demands inactivity from `now ≥ expires_at` on. -/
theorem session_expiry_cex :
    shortSession.expires_at = 10
    ∧ shortSession.is_active 10 = true
    ∧ ¬ (10 < shortSession.expires_at)
    ∧ (SessionManager.get_active
        { sessions := [shortSession], max_sessions := 10 } "s1" 10).1 = some shortSession
    ∧ (SessionManager.get
        { sessions := [shortSession], max_sessions := 10 } "s1" 10).1 = some shortSession := by
  refine ⟨rfl, by decide, by decide, by decide, by decide⟩

/-- C4 (amended): `expires_at = created_at + timeout_seconds` for fresh
sessions; `is_active ↔ status = ACTIVE ∧ now ≤ expires_at` (the boundary
instant `now = expires_at` still counts as active because `is_expired` uses
a strict comparison); `touch` only rewrites `updated_at`; and strictly after
expiry (`expires_at < now`) `get_active` returns nothing while `get`
promotes the session's status to EXPIRED. -/
theorem session_expiry_absolute :
    (∀ (sid tid cid : String) (cfg : SessionConfig) (st : SessionStatus) (now : Nat),
      (Session.make sid tid cid cfg st now).expires_at
        = (Session.make sid tid cid cfg st now).created_at + cfg.timeout_seconds)
    ∧ (∀ (s : Session) (now : Nat),
      s.is_active now = (s.status == SessionStatus.active && decide (now ≤ s.expires_at)))
    ∧ (∀ (s : Session) (now : Nat),
      (s.touch now).session_id = s.session_id ∧ (s.touch now).trace_id = s.trace_id
      ∧ (s.touch now).client_id = s.client_id ∧ (s.touch now).config = s.config
      ∧ (s.touch now).status = s.status ∧ (s.touch now).created_at = s.created_at
      ∧ (s.touch now).expires_at = s.expires_at ∧ (s.touch now).updated_at = now)
    ∧ (∀ (m : SessionManager) (sid : String) (now : Nat) (s : Session),
      m.sessions.find? (fun t => t.session_id == sid) = some s →
      s.expires_at < now →
      (m.get_active sid now).1 = none
      ∧ (m.get sid now).1 = some { s with status := SessionStatus.expired }) := by
  refine ⟨fun _ _ _ _ _ _ => rfl, ?_, fun s now => ⟨rfl, rfl, rfl, rfl, rfl, rfl, rfl, rfl⟩, ?_⟩
  · intro s now
    simp only [Session.is_active, Session.is_expired]
    by_cases h : now ≤ s.expires_at
    · simp [h, Nat.not_lt.mpr h]
    · simp [h, Nat.lt_of_not_le h]
  · intro m sid now s hf hlt
    have hexp : s.is_expired now = true := by
      simp [Session.is_expired]; exact hlt
    constructor
    · unfold SessionManager.get_active SessionManager.get
      rw [hf]
      simp [hexp, Session.is_active]
    · unfold SessionManager.get
      rw [hf]
      simp [hexp]

/-- Witness for the amended C4 at a concrete input: one second after
expiry (`now = 11 > expires_at = 10`) the lookup paths behave as stated. -/
theorem session_expiry_absolute_witness :
    (SessionManager.get_active
        { sessions := [shortSession], max_sessions := 10 } "s1" 11).1 = none
    ∧ (SessionManager.get
        { sessions := [shortSession], max_sessions := 10 } "s1" 11).1
      = some { shortSession with status := SessionStatus.expired } :=
  session_expiry_absolute.2.2.2
    { sessions := [shortSession], max_sessions := 10 } "s1" 11 shortSession
    (by decide) (by decide)

/-! ## Aliyun STT driver keep-alive (src/perception/stt/aliyun.py) -/

namespace Stt

/-- `SttConfig` dataclass (perception/stt/base.py); the driver binds the
upstream recognizer to `sample_rate`. -/
structure SttConfig where
  model : String := "default"
  language : String := "zh-CN"
  sample_rate : Nat := 16000
  enable_punctuation : Bool := true
  enable_itn : Bool := true
  max_sentence_silence : Nat := 800
  enable_words : Bool := false
deriving DecidableEq

/-- `AliyunSttService.SILENCE_FRAME = bytes(3200)`: a constant of 3200 zero
bytes (100 ms of 16-bit PCM at 16 kHz), not derived from the configured
sample rate. -/
def SILENCE_FRAME : List Nat := List.replicate 3200 0

/-- `AliyunSttService.KEEPALIVE_INTERVAL` in seconds. -/
def KEEPALIVE_INTERVAL : Nat := 10

/-- The driver fields read by `send_audio` and `_keepalive_loop`:
`_running`, `_recognition is not None`, `_last_audio_time`. -/
structure DriverState where
  running : Bool
  recognition_open : Bool
  last_audio_time : Nat
deriving DecidableEq

/-- Effect of one driver action: frames pushed to the upstream recognizer
and callback payloads emitted toward the client. -/
structure DriverEffect where
  upstream : List (List Nat)
  emitted : List String
deriving DecidableEq

/-- `send_audio`: silently dropped unless running with an open handle;
otherwise the chunk is forwarded and `_last_audio_time` is refreshed. -/
def send_audio (st : DriverState) (chunk : List Nat) (now : Nat) :
    DriverState × DriverEffect :=
  if st.running && st.recognition_open then
    ({ st with last_audio_time := now }, { upstream := [chunk], emitted := [] })
  else
    (st, { upstream := [], emitted := [] })

/-- One firing of `_keepalive_loop` at time `now` (the loop wakes every
`KEEPALIVE_INTERVAL` seconds): inject exactly one `SILENCE_FRAME` iff the
session is running, the handle is open, and at least `KEEPALIVE_INTERVAL`
seconds have passed since the last real audio.  The injection does not touch
`_last_audio_time` and invokes no client callback. -/
def keepalive_tick (st : DriverState) (now : Nat) : DriverState × DriverEffect :=
  if st.running && st.recognition_open
      && decide (now - st.last_audio_time ≥ KEEPALIVE_INTERVAL) then
    (st, { upstream := [SILENCE_FRAME], emitted := [] })
  else
    (st, { upstream := [], emitted := [] })

/-- The keep-alive loop over a list of wake-up times. -/
def keepalive_run (st : DriverState) : List Nat → DriverState × List (List Nat)
  | [] => (st, [])
  | t :: ts =>
    let r := keepalive_tick st t
    let rest := keepalive_run r.1 ts
    (rest.1, r.2.upstream ++ rest.2)

/-- Wake-up times of the loop over a silent session of duration `T` seconds
started at time 0: `10, 20, …, 10·⌊T/10⌋`. -/
def silentTickTimes (T : Nat) : List Nat :=
  (List.range (T / KEEPALIVE_INTERVAL)).map (fun i => KEEPALIVE_INTERVAL * (i + 1))

/-- A running driver that last saw audio at time 0 injects one silence frame
at every wake-up no earlier than `KEEPALIVE_INTERVAL`. -/
theorem keepalive_run_silent (l : List Nat) (h : ∀ t ∈ l, KEEPALIVE_INTERVAL ≤ t) :
    keepalive_run { running := true, recognition_open := true, last_audio_time := 0 } l
      = ({ running := true, recognition_open := true, last_audio_time := 0 },
         List.replicate l.length SILENCE_FRAME) := by
  induction l with
  | nil => rfl
  | cons t ts ih =>
    have ht : KEEPALIVE_INTERVAL ≤ t := h t (List.mem_cons_self t ts)
    have hts : ∀ x ∈ ts, KEEPALIVE_INTERVAL ≤ x :=
      fun x hx => h x (List.mem_cons_of_mem t hx)
    have hcond : (true && true
        && decide (t - (0 : Nat) ≥ KEEPALIVE_INTERVAL)) = true := by
      simp [ht]
    simp only [keepalive_run, keepalive_tick, hcond, if_true]
    rw [ih hts]
    simp [List.replicate_succ]

end Stt

/-- The STT configuration a client may legally request at 8 kHz. -/
def config8k : Stt.SttConfig :=
  { model := "paraformer-realtime-v2", sample_rate := 8000 }

/-- Counterexample to C8 as stated: the injected silence frame is the fixed
constant `bytes(3200)` — 100 ms of 16-bit PCM at 16 kHz — so for a session
configured at sample rate 8000 it is NOT `0.1 × r × 2` bytes (1600). -/
theorem keepalive_frame_cex :
    config8k.sample_rate = 8000
    ∧ Stt.SILENCE_FRAME.length = 3200
    ∧ Stt.SILENCE_FRAME.length ≠ config8k.sample_rate * 2 / 10 := by
  refine ⟨rfl, by simp only [Stt.SILENCE_FRAME, List.length_replicate], ?_⟩
  simp only [Stt.SILENCE_FRAME, List.length_replicate]
  decide

/-- C8 (amended): whenever `now − last_audio_at ≥ KEEPALIVE_INTERVAL` and the
session is running, the keep-alive injects exactly one silence frame of 3200
zero bytes (100 ms of 16-bit PCM at the fixed 16 kHz rate, regardless of the
configured sample rate); the injection is invisible to the client; each real
`send_audio` resets `last_audio_at`; and a silent session of duration `T`
receives exactly `⌊T / KEEPALIVE_INTERVAL⌋` such frames. -/
theorem keepalive_injection :
    (Stt.SILENCE_FRAME.length = 3200 ∧ ∀ b ∈ Stt.SILENCE_FRAME, b = 0)
    ∧ (∀ (st : Stt.DriverState) (now : Nat),
        st.running = true → st.recognition_open = true →
        Stt.KEEPALIVE_INTERVAL ≤ now - st.last_audio_time →
        Stt.keepalive_tick st now
          = (st, { upstream := [Stt.SILENCE_FRAME], emitted := [] }))
    ∧ (∀ (st : Stt.DriverState) (now : Nat),
        (Stt.keepalive_tick st now).2.emitted = []
        ∧ (Stt.keepalive_tick st now).1 = st)
    ∧ (∀ (st : Stt.DriverState) (chunk : List Nat) (now : Nat),
        st.running = true → st.recognition_open = true →
        (Stt.send_audio st chunk now).1.last_audio_time = now)
    ∧ (∀ T : Nat,
        (Stt.keepalive_run
            { running := true, recognition_open := true, last_audio_time := 0 }
            (Stt.silentTickTimes T)).2
          = List.replicate (T / Stt.KEEPALIVE_INTERVAL) Stt.SILENCE_FRAME) := by
  refine ⟨⟨by simp only [Stt.SILENCE_FRAME, List.length_replicate], ?_⟩, ?_, ?_, ?_, ?_⟩
  · intro b hb
    exact List.eq_of_mem_replicate hb
  · intro st now hr ho hi
    simp [Stt.keepalive_tick, hr, ho, hi]
  · intro st now
    unfold Stt.keepalive_tick
    split <;> simp
  · intro st chunk now hr ho
    simp [Stt.send_audio, hr, ho]
  · intro T
    have hmem : ∀ t ∈ Stt.silentTickTimes T, Stt.KEEPALIVE_INTERVAL ≤ t := by
      intro t ht
      obtain ⟨i, -, hi⟩ := List.mem_map.mp ht
      subst hi
      simp only [Stt.KEEPALIVE_INTERVAL]
      omega
    rw [Stt.keepalive_run_silent _ hmem]
    simp [Stt.silentTickTimes]

/-- Witness for the amended C8: a running driver silent for 25 s (wake-ups at
10 and 20) injects exactly two 3200-byte silence frames. -/
theorem keepalive_injection_witness :
    (Stt.keepalive_run
        { running := true, recognition_open := true, last_audio_time := 0 }
        (Stt.silentTickTimes 25)).2
      = List.replicate 2 Stt.SILENCE_FRAME :=
  keepalive_injection.2.2.2.2 25

/-! ## Bidirectional multimodal stream (src/server/grpc/servicer.py,
`ProcessStream`)

The LLM worker is the single consumer of `pending_sentences` and the only
producer of `Llm` and `Complete{sentence_complete}` frames.  Each turn's
`chat_stream` call is an oracle `TurnOutcome`: the deltas received before the
stream finished, raised, or the worker task was cancelled.  All frames a turn
enqueues with `put_nowait` are recorded in order; the response sender drains
the FIFO queue, so the wire order is an interleaving of the worker's frame
sequence with the frames from the STT callbacks and the request reader. -/

/-- A chat message dict `{"role": …, "content": …}`. -/
structure ChatMsg where
  role : String
  content : String
deriving DecidableEq

/-- Outbound `MultiModalStreamResponse` frames (the `Complete` frame's
`latency_ms` metadatum is wall-clock derived and not modelled). -/
inductive ServerFrame
  | ready (session_id : String) (message : String)
  | stt (text : String) (is_final : Bool)
  | llm (delta : String) (index : Nat)
  | complete (finish_reason : String) (transcribed_text : String)
  | error (code : Nat) (message : String) (recoverable : Bool)
deriving DecidableEq

/-- The start frame's `config`. -/
structure StreamConfig where
  stt_model : String := ""
  llm_model : String := ""
  language : String := ""
  system_prompt : String := ""
  max_tokens : Nat := 0
deriving DecidableEq

/-- Oracle for one turn's `chat_stream` call: the chunk deltas received
before the stream completed normally, raised an exception, or the worker was
cancelled mid-stream. -/
inductive TurnOutcome
  | success (chunks : List String)
  | failure (chunks : List String) (errMsg : String)
  | cancelled (chunks : List String)
deriving DecidableEq

/-- The deltas a turn received, whatever its ending. -/
def TurnOutcome.chunks : TurnOutcome → List String
  | TurnOutcome.success cs => cs
  | TurnOutcome.failure cs _ => cs
  | TurnOutcome.cancelled cs => cs

/-- The worker skips empty deltas (`if chunk.delta:`). -/
def nonemptyDeltas (chunks : List String) : List String :=
  chunks.filter (fun d => !(d == ""))

/-- `Llm{delta, token_index}` frames for a list of deltas, indices counting
up from `i` (the per-turn counter starts at 0). -/
def llmFrames : Nat → List String → List ServerFrame
  | _, [] => []
  | i, d :: ds => ServerFrame.llm d i :: llmFrames (i + 1) ds

/-- The optional system message (`if config and config.system_prompt:`). -/
def systemMessages (config : Option StreamConfig) : List ChatMsg :=
  match config with
  | some c => if c.system_prompt == "" then [] else [⟨"system", c.system_prompt⟩]
  | none => []

/-- The prompt one turn sends to the LLM: optional system message, then
`conversation_history`, then the user sentence. -/
def buildMessages (config : Option StreamConfig) (history : List ChatMsg)
    (sentence : String) : List ChatMsg :=
  systemMessages config ++ history ++ [ChatMsg.mk "user" sentence]

/-- Everything one iteration of the worker loop did for one sentence. -/
structure TurnLog where
  sentence : String
  prompt : List ChatMsg
  deltas : List String
  response : String
  frames : List ServerFrame
  committed : Bool
  keep_running : Bool
deriving DecidableEq

/-- One iteration of the `llm_worker` loop body: stream the turn, enqueue an
`Llm` frame per non-empty delta, then — only when the stream finishes
normally — append the (user, assistant) pair to `conversation_history` and
enqueue `Complete{sentence_complete}`.  An exception enqueues
`Error{5001, recoverable}` and leaves the history alone; a cancellation
leaves the history alone and stops the loop. -/
def process_turn (config : Option StreamConfig) (history : List ChatMsg)
    (sentence : String) (outcome : TurnOutcome) : TurnLog × List ChatMsg :=
  let ds := nonemptyDeltas outcome.chunks
  let resp := String.join ds
  let prompt := buildMessages config history sentence
  match outcome with
  | TurnOutcome.success _ =>
    ({ sentence := sentence, prompt := prompt, deltas := ds, response := resp,
       frames := llmFrames 0 ds ++ [ServerFrame.complete "sentence_complete" sentence],
       committed := true, keep_running := true },
     history ++ [ChatMsg.mk "user" sentence, ChatMsg.mk "assistant" resp])
  | TurnOutcome.failure _ e =>
    ({ sentence := sentence, prompt := prompt, deltas := ds, response := resp,
       frames := llmFrames 0 ds
         ++ [ServerFrame.error 5001 ("LLM generation failed: " ++ e) true],
       committed := false, keep_running := true },
     history)
  | TurnOutcome.cancelled _ =>
    ({ sentence := sentence, prompt := prompt, deltas := ds, response := resp,
       frames := llmFrames 0 ds,
       committed := false, keep_running := false },
     history)

/-- Result of the whole worker loop. -/
structure WorkerResult where
  frames : List ServerFrame
  history : List ChatMsg
  logs : List TurnLog
deriving DecidableEq

/-- The `llm_worker` background task, processing the queued sentences in FIFO
order; a cancellation stops the loop, abandoning the remaining sentences. -/
def llm_worker (config : Option StreamConfig) :
    List ChatMsg → List (String × TurnOutcome) → WorkerResult
  | history, [] => { frames := [], history := history, logs := [] }
  | history, (s, o) :: rest =>
    let r := process_turn config history s o
    if r.1.keep_running then
      let w := llm_worker config r.2 rest
      { frames := r.1.frames ++ w.frames, history := w.history, logs := r.1 :: w.logs }
    else
      { frames := r.1.frames, history := r.2, logs := [r.1] }

/-- The (user, assistant) pairs of the committed turns, in order. -/
def committedPairs (logs : List TurnLog) : List ChatMsg :=
  ((logs.filter (fun r => r.committed)).map
    (fun r => [ChatMsg.mk "user" r.sentence, ChatMsg.mk "assistant" r.response])).flatten

/-- Frames that belong to an LLM turn: `Llm` deltas and
`Complete{sentence_complete}` (the STT callbacks and the reader only produce
`Ready`, `Stt`, `Error` and the terminal `Complete{stop}`). -/
def isTurnFrame : ServerFrame → Bool
  | ServerFrame.llm _ _ => true
  | ServerFrame.complete fr _ => fr == "sentence_complete"
  | _ => false

/-- The `Llm`/`Complete` frames one turn contributes to the output. -/
def turnBlock (r : TurnLog) : List ServerFrame :=
  llmFrames 0 r.deltas
    ++ if r.committed then [ServerFrame.complete "sentence_complete" r.sentence] else []

/-- The token index carried by an `Llm` frame. -/
def frameIndex : ServerFrame → Nat
  | ServerFrame.llm _ i => i
  | _ => 0

/-- The delta carried by an `Llm` frame. -/
def frameDelta : ServerFrame → String
  | ServerFrame.llm d _ => d
  | _ => ""

/-- `zs` is an order-preserving merge of `xs` and `ys` — the possible outputs
of the FIFO `output_queue` with two producers enqueueing `xs` and `ys`. -/
inductive Interleaves : List ServerFrame → List ServerFrame → List ServerFrame → Prop
  | nil : Interleaves [] [] []
  | left {x : ServerFrame} {xs ys zs : List ServerFrame} :
      Interleaves xs ys zs → Interleaves (x :: xs) ys (x :: zs)
  | right {y : ServerFrame} {xs ys zs : List ServerFrame} :
      Interleaves xs ys zs → Interleaves xs (y :: ys) (y :: zs)

/-- `llmFrames` yields one frame per delta. -/
theorem llmFrames_length (i : Nat) (ds : List String) :
    (llmFrames i ds).length = ds.length := by
  induction ds generalizing i with
  | nil => rfl
  | cons d ds ih => simp [llmFrames, ih]

/-- Every frame `llmFrames` yields is an `Llm` frame. -/
theorem llmFrames_filter (i : Nat) (ds : List String) :
    (llmFrames i ds).filter isTurnFrame = llmFrames i ds := by
  induction ds generalizing i with
  | nil => rfl
  | cons d ds ih => simp [llmFrames, List.filter_cons, isTurnFrame, ih]

/-- The token indices of `llmFrames i ds` are `i, i+1, …`. -/
theorem llmFrames_map_index (i : Nat) (ds : List String) :
    (llmFrames i ds).map frameIndex = List.range' i ds.length := by
  induction ds generalizing i with
  | nil => rfl
  | cons d ds ih => simp [llmFrames, frameIndex, ih, List.range'_succ]

/-- The deltas of `llmFrames i ds` are `ds` in order. -/
theorem llmFrames_map_delta (i : Nat) (ds : List String) :
    (llmFrames i ds).map frameDelta = ds := by
  induction ds generalizing i with
  | nil => rfl
  | cons d ds ih => simp [llmFrames, frameDelta, ih]

/-- The worker's frame sequence is the concatenation of its turns' frames. -/
theorem llm_worker_frames_eq (config : Option StreamConfig) (history : List ChatMsg)
    (ts : List (String × TurnOutcome)) :
    (llm_worker config history ts).frames
      = ((llm_worker config history ts).logs.map TurnLog.frames).flatten := by
  induction ts generalizing history with
  | nil => rfl
  | cons t ts ih =>
    obtain ⟨s, o⟩ := t
    simp only [llm_worker]
    by_cases hk : (process_turn config history s o).1.keep_running = true
    · simp [hk, ih]
    · simp [hk]

/-- The final `conversation_history` is the initial history extended by
exactly the committed turns' (user, assistant) pairs. -/
theorem llm_worker_history_eq (config : Option StreamConfig) (history : List ChatMsg)
    (ts : List (String × TurnOutcome)) :
    (llm_worker config history ts).history
      = history ++ committedPairs (llm_worker config history ts).logs := by
  induction ts generalizing history with
  | nil => simp [llm_worker, committedPairs]
  | cons t ts ih =>
    obtain ⟨s, o⟩ := t
    cases o with
    | success cs =>
      simp only [llm_worker, process_turn, reduceIte, Bool.false_eq_true, if_false, if_true]
      rw [ih]
      simp [committedPairs, List.filter_cons]
    | failure cs e =>
      simp only [llm_worker, process_turn, reduceIte, Bool.false_eq_true, if_false, if_true]
      rw [ih]
      simp [committedPairs, List.filter_cons]
    | cancelled cs =>
      simp only [llm_worker, process_turn, reduceIte, Bool.false_eq_true, if_false, if_true]
      simp [committedPairs, List.filter_cons]

/-- The prompt of the `j`-th processed turn is the optional system message,
the initial history, the pairs committed by the earlier turns, and the user
sentence. -/
theorem llm_worker_prompt_eq (config : Option StreamConfig) (history : List ChatMsg)
    (ts : List (String × TurnOutcome)) :
    ∀ (j : Nat) (lg : TurnLog), (llm_worker config history ts).logs.get? j = some lg →
      lg.prompt = systemMessages config ++ history
        ++ committedPairs ((llm_worker config history ts).logs.take j)
        ++ [ChatMsg.mk "user" lg.sentence] := by
  induction ts generalizing history with
  | nil => intro j lg h; simp [llm_worker] at h
  | cons t ts ih =>
    obtain ⟨s, o⟩ := t
    intro j lg h
    cases o with
    | success cs =>
      simp only [llm_worker, process_turn, reduceIte, Bool.false_eq_true, if_false, if_true] at h ⊢
      cases j with
      | zero =>
        simp only [List.get?] at h
        cases h
        simp [buildMessages, committedPairs]
      | succ j =>
        simp only [List.get?] at h
        rw [ih _ j lg h]
        simp [committedPairs, List.filter_cons, List.append_assoc]
    | failure cs e =>
      simp only [llm_worker, process_turn, reduceIte, Bool.false_eq_true, if_false, if_true] at h ⊢
      cases j with
      | zero =>
        simp only [List.get?] at h
        cases h
        simp [buildMessages, committedPairs]
      | succ j =>
        simp only [List.get?] at h
        rw [ih _ j lg h]
        simp [committedPairs, List.filter_cons, List.append_assoc]
    | cancelled cs =>
      simp only [llm_worker, process_turn, reduceIte, Bool.false_eq_true, if_false, if_true] at h ⊢
      cases j with
      | zero =>
        simp only [List.get?] at h
        cases h
        simp [buildMessages, committedPairs]
      | succ j =>
        simp only [List.get?] at h
        cases h

/-- A committed turn's pair is an infix of the committed-pairs list. -/
theorem pair_infix_committedPairs {r : TurnLog} {logs : List TurnLog}
    (hmem : r ∈ logs) (hc : r.committed = true) :
    List.IsInfix [ChatMsg.mk "user" r.sentence, ChatMsg.mk "assistant" r.response]
      (committedPairs logs) := by
  induction logs with
  | nil => cases hmem
  | cons t ts ih =>
    rcases List.mem_cons.mp hmem with h | h
    · subst h
      have : committedPairs (r :: ts)
          = [ChatMsg.mk "user" r.sentence, ChatMsg.mk "assistant" r.response]
            ++ committedPairs ts := by
        simp [committedPairs, List.filter_cons, hc]
      rw [this]
      exact ⟨[], committedPairs ts, by simp⟩
    · by_cases ht : t.committed = true
      · have hstep : committedPairs (t :: ts)
            = [ChatMsg.mk "user" t.sentence, ChatMsg.mk "assistant" t.response]
              ++ committedPairs ts := by
          simp [committedPairs, List.filter_cons, ht]
        rw [hstep]
        exact (ih h).trans (List.suffix_append _ _).isInfix
      · have hstep : committedPairs (t :: ts) = committedPairs ts := by
          simp [committedPairs, List.filter_cons, ht]
        rw [hstep]
        exact ih h

/-- C2: if turn `i` commits (it emitted `Complete{sentence_complete}`), its
(user, assistant) pair appears verbatim in the prompt of every later turn
`j`; and the final `conversation_history` consists of the initial history
plus exactly the committed turns' pairs — so a turn cancelled (or failed)
before completion never contributes a message. -/
theorem history_commit_rule (config : Option StreamConfig) (h0 : List ChatMsg)
    (ts : List (String × TurnOutcome)) :
    (∀ (i j : Nat) (li lj : TurnLog),
      (llm_worker config h0 ts).logs.get? i = some li →
      (llm_worker config h0 ts).logs.get? j = some lj →
      i < j → li.committed = true →
      List.IsInfix [ChatMsg.mk "user" li.sentence, ChatMsg.mk "assistant" li.response]
        lj.prompt)
    ∧ (llm_worker config h0 ts).history
        = h0 ++ committedPairs (llm_worker config h0 ts).logs := by
  refine ⟨?_, llm_worker_history_eq config h0 ts⟩
  intro i j li lj hi hj hij hc
  rw [llm_worker_prompt_eq config h0 ts j lj hj]
  have hmem : li ∈ (llm_worker config h0 ts).logs.take j := by
    refine List.get?_mem (n := i) ?_
    rw [List.get?_eq_getElem?, List.getElem?_take, if_pos hij,
      ← List.get?_eq_getElem?]
    exact hi
  obtain ⟨s, u, hsu⟩ := pair_infix_committedPairs hmem hc
  exact ⟨systemMessages config ++ h0 ++ s,
    u ++ [ChatMsg.mk "user" lj.sentence], by rw [← hsu]; simp⟩

/-- Filtering a merge whose second component contributes no turn frames
recovers exactly the first component's turn frames, in order. -/
theorem interleaves_filter {xs ys zs : List ServerFrame}
    (h : Interleaves xs ys zs) (hy : ∀ f ∈ ys, isTurnFrame f = false) :
    zs.filter isTurnFrame = xs.filter isTurnFrame := by
  induction h with
  | nil => rfl
  | left h ih =>
    simp [List.filter_cons, ih hy]
  | right h ih =>
    have hhead := hy _ (List.mem_cons_self _ _)
    simp [List.filter_cons, hhead, ih (fun f hf => hy f (List.mem_cons_of_mem _ hf))]

/-- The worker's turn frames are the concatenation of the per-turn blocks. -/
theorem llm_worker_filter_eq (config : Option StreamConfig) (history : List ChatMsg)
    (ts : List (String × TurnOutcome)) :
    (llm_worker config history ts).frames.filter isTurnFrame
      = ((llm_worker config history ts).logs.map turnBlock).flatten := by
  induction ts generalizing history with
  | nil => rfl
  | cons t ts ih =>
    obtain ⟨s, o⟩ := t
    cases o with
    | success cs =>
      simp only [llm_worker, process_turn, reduceIte, Bool.false_eq_true, if_false, if_true]
      rw [List.filter_append, List.filter_append, llmFrames_filter]
      simp [isTurnFrame, turnBlock, ih, List.filter_cons]
    | failure cs e =>
      simp only [llm_worker, process_turn, reduceIte, Bool.false_eq_true, if_false, if_true]
      rw [List.filter_append, List.filter_append, llmFrames_filter]
      simp [isTurnFrame, turnBlock, ih, List.filter_cons]
    | cancelled cs =>
      simp only [llm_worker, process_turn, reduceIte, Bool.false_eq_true, if_false, if_true]
      rw [llmFrames_filter]
      simp [turnBlock]

/-- Witness for C2 at a concrete two-turn run: turn 0 ("hi" answered
"Hello") commits, and its pair appears verbatim in turn 1's prompt. -/
theorem history_commit_rule_witness :
    List.IsInfix [ChatMsg.mk "user" "hi", ChatMsg.mk "assistant" "Hello"]
      [ChatMsg.mk "user" "hi", ChatMsg.mk "assistant" "Hello", ChatMsg.mk "user" "bye"] := by
  have h := (history_commit_rule none []
      [("hi", TurnOutcome.success ["Hello"]), ("bye", TurnOutcome.success ["ok"])]).1
      0 1 _ _ rfl rfl (by omega) rfl
  exact h

/-- Counterexample to C1 as stated: the sentence `"hi"` is queued, but its
LLM call raises, so the output carries `Error{5001}` and NO
`Complete{finish_reason="sentence_complete"}` frame for it — the claim's
"exactly one Complete per queued sentence" fails on the failure path. -/
theorem turn_atomicity_cex :
    (llm_worker none [] [("hi", TurnOutcome.failure [] "boom")]).frames
      = [ServerFrame.error 5001 "LLM generation failed: boom" true]
    ∧ ((llm_worker none [] [("hi", TurnOutcome.failure [] "boom")]).frames.filter
        (fun f => f == ServerFrame.complete "sentence_complete" "hi")) = [] := by
  exact ⟨by decide, by decide⟩

/-- C1 (amended): in any merge of the worker's frames with frames from the
other producers (which emit no `Llm` or `Complete{sentence_complete}`
frames), the subsequence of turn frames is exactly the per-turn blocks in
processing order — for a turn that completes successfully, its `Llm` frames
with consecutive token indices `0,1,…` followed by exactly one
`Complete{sentence_complete, transcribed_text = sentence}`; a turn whose LLM
call fails or is cancelled contributes only its already-streamed `Llm`
frames and no `Complete`.  Hence turn N's `Complete` precedes every `Llm`
frame of turn N+1 and no two turns' `Llm` frames interleave. -/
theorem turn_atomicity (config : Option StreamConfig) (h0 : List ChatMsg)
    (ts : List (String × TurnOutcome)) (other out : List ServerFrame)
    (hmerge : Interleaves (llm_worker config h0 ts).frames other out)
    (hother : ∀ f ∈ other, isTurnFrame f = false) :
    out.filter isTurnFrame = ((llm_worker config h0 ts).logs.map turnBlock).flatten
    ∧ (∀ r : TurnLog, r.committed = true →
        turnBlock r = llmFrames 0 r.deltas
          ++ [ServerFrame.complete "sentence_complete" r.sentence])
    ∧ (∀ r : TurnLog, r.committed = false → turnBlock r = llmFrames 0 r.deltas)
    ∧ (∀ ds : List String,
        (llmFrames 0 ds).map frameIndex = List.range ds.length
        ∧ (llmFrames 0 ds).map frameDelta = ds) := by
  refine ⟨?_, ?_, ?_, ?_⟩
  · rw [interleaves_filter hmerge hother, llm_worker_filter_eq]
  · intro r hr; simp [turnBlock, hr]
  · intro r hr; simp [turnBlock, hr]
  · intro ds
    exact ⟨by rw [llmFrames_map_index, List.range_eq_range'], llmFrames_map_delta 0 ds⟩

/-- Witness for the amended C1: a successful turn for `"hi"` with deltas
`"a"`, `""`, `"b"`, merged after one STT frame: the turn-frame subsequence
is `Llm{0}, Llm{1}, Complete{sentence_complete, "hi"}`. -/
theorem turn_atomicity_witness :
    ([ServerFrame.stt "hi" true, ServerFrame.llm "a" 0, ServerFrame.llm "b" 1,
        ServerFrame.complete "sentence_complete" "hi"].filter isTurnFrame)
      = ((llm_worker none [] [("hi", TurnOutcome.success ["a", "", "b"])]).logs.map
          turnBlock).flatten := by
  have hfr : (llm_worker none [] [("hi", TurnOutcome.success ["a", "", "b"])]).frames
      = [ServerFrame.llm "a" 0, ServerFrame.llm "b" 1,
         ServerFrame.complete "sentence_complete" "hi"] := by decide
  have hm : Interleaves (llm_worker none [] [("hi", TurnOutcome.success ["a", "", "b"])]).frames
      [ServerFrame.stt "hi" true]
      [ServerFrame.stt "hi" true, ServerFrame.llm "a" 0, ServerFrame.llm "b" 1,
        ServerFrame.complete "sentence_complete" "hi"] := by
    rw [hfr]
    exact Interleaves.right (Interleaves.left (Interleaves.left
      (Interleaves.left Interleaves.nil)))
  exact (turn_atomicity none [] [("hi", TurnOutcome.success ["a", "", "b"])]
    [ServerFrame.stt "hi" true] _ hm (by decide)).1

/-! ## The output queue (src/server/grpc/servicer.py line 400)

`ProcessStream` creates `output_queue = asyncio.Queue()` — no capacity
argument, so `maxsize = 0`, which `asyncio` treats as infinite — and every
producer enqueues with `put_nowait` (which raises `QueueFull` when a finite
queue is full, and never blocks). -/

/-- An `asyncio.Queue` of outbound frames. -/
structure AsyncQueue where
  maxsize : Nat
  items : List ServerFrame
deriving DecidableEq

/-- `asyncio.Queue.full()`: `False` whenever `maxsize ≤ 0`. -/
def AsyncQueue.full (q : AsyncQueue) : Bool :=
  decide (0 < q.maxsize) && decide (q.maxsize ≤ q.items.length)

/-- `put_nowait`: raises `QueueFull` (`none`) if full, else appends. -/
def AsyncQueue.put_nowait (q : AsyncQueue) (f : ServerFrame) : Option AsyncQueue :=
  if q.full then none else some { q with items := q.items ++ [f] }

/-- The response sender's pop. -/
def AsyncQueue.pop (q : AsyncQueue) : Option (ServerFrame × AsyncQueue) :=
  match q.items with
  | [] => none
  | x :: xs => some (x, { q with items := xs })

/-- `output_queue = asyncio.Queue()`: created with `maxsize = 0`. -/
def output_queue_init : AsyncQueue := { maxsize := 0, items := [] }

/-- Queue states reachable during one stream: producers `put_nowait`
(`on_partial`, `on_final`, `on_error`, the LLM worker, the reader), the
sender pops. -/
inductive OutputQueueReachable : AsyncQueue → Prop
  | init : OutputQueueReachable output_queue_init
  | put {q q' : AsyncQueue} (f : ServerFrame) :
      OutputQueueReachable q → q.put_nowait f = some q' → OutputQueueReachable q'
  | pop {q : AsyncQueue} {f : ServerFrame} {q' : AsyncQueue} :
      OutputQueueReachable q → q.pop = some (f, q') → OutputQueueReachable q'

/-- C3's reading: some configured capacity bounds every reachable length. -/
def outputQueueBoundedClaim : Prop :=
  ∃ c : Nat, 0 < c ∧ ∀ q : AsyncQueue, OutputQueueReachable q → q.items.length ≤ c

/-- With no consumer pops, `n` successful `put_nowait`s reach length `n`. -/
theorem outputQueue_replicate_reachable (n : Nat) :
    OutputQueueReachable
      { maxsize := 0, items := List.replicate n (ServerFrame.ready "s" "m") } := by
  induction n with
  | zero => exact OutputQueueReachable.init
  | succ n ih =>
    refine OutputQueueReachable.put (ServerFrame.ready "s" "m") ih ?_
    simp [AsyncQueue.put_nowait, AsyncQueue.full, List.replicate_succ']

/-- Counterexample to C3 as stated: no capacity bounds the reachable queue
lengths — `output_queue` is created unbounded and `put_nowait` always
succeeds, so for every candidate capacity `c` a queue of length `c + 1` is
reachable. -/
theorem output_queue_bounded_cex : ¬ outputQueueBoundedClaim := by
  rintro ⟨c, hc, hb⟩
  have h := hb _ (outputQueue_replicate_reachable (c + 1))
  simp only [List.length_replicate] at h
  omega

/-- C3 (amended): `output_queue` is created with `maxsize = 0` (unbounded);
`put_nowait` on such a queue always succeeds immediately — producers never
block and never fail — and queue states of every length are reachable; no
configuration knob sets a capacity. -/
theorem output_queue_unbounded :
    output_queue_init.maxsize = 0
    ∧ (∀ (q : AsyncQueue) (f : ServerFrame), q.maxsize = 0 →
        q.put_nowait f = some { q with items := q.items ++ [f] })
    ∧ (∀ n : Nat, OutputQueueReachable
        { maxsize := 0, items := List.replicate n (ServerFrame.ready "s" "m") }) := by
  refine ⟨rfl, ?_, outputQueue_replicate_reachable⟩
  intro q f h
  simp [AsyncQueue.put_nowait, AsyncQueue.full, h]

/-- Witness for the amended C3: a `put_nowait` on the freshly created queue
succeeds and appends. -/
theorem output_queue_unbounded_witness :
    AsyncQueue.put_nowait { maxsize := 0, items := [] } (ServerFrame.ready "s" "m")
      = some { maxsize := 0, items := [ServerFrame.ready "s" "m"] } :=
  output_queue_unbounded.2.1 { maxsize := 0, items := [] } (ServerFrame.ready "s" "m") rfl

/-! ## Unary multimodal RPC (src/server/grpc/servicer.py, `Process`)

The whole handler body sits in one `try`; `except Exception` returns
`outputs=[]` with `finish_reason="error"` and the elapsed latency.  The two
fallible steps — `transcribe_once` and `chat_stream` — are oracles. -/

/-- The unary request's `config`. -/
structure ProcessConfig where
  stt_model : String := ""
  llm_model : String := ""
  language : String := ""
  system_prompt : String := ""
  max_tokens : Nat := 0
deriving DecidableEq

/-- One `ModalityInput` of the unary request. -/
inductive ModalityInput
  | textInput (role content : String)
  | audioInput (data : List Nat)
deriving DecidableEq

/-- `MultiModalRequest`. -/
structure MultiModalRequest where
  session_id : String
  config : ProcessConfig
  inputs : List ModalityInput
deriving DecidableEq

/-- A `ModalityOutput.text`. -/
structure TextOutput where
  content : String
  role : String
deriving DecidableEq

/-- `ProcessingMetadata` (token counts are constant 0 in the source). -/
structure ProcessingMetadata where
  finish_reason : String
  transcribed_text : String := ""
  latency_ms : Nat := 0
deriving DecidableEq

/-- `MultiModalResponse`. -/
structure MultiModalResponse where
  session_id : String
  outputs : List TextOutput
  metadata : ProcessingMetadata
deriving DecidableEq

/-- `session_id = request.session_id or f"mm_{uuid…}"`. -/
def effectiveSessionId (req : MultiModalRequest) (fresh : String) : String :=
  if req.session_id == "" then fresh else req.session_id

/-- Step 1 of `Process`: the text inputs, with empty roles defaulted to
`"user"` (`inp.text.role or "user"`). -/
def textInputs (inputs : List ModalityInput) : List ChatMsg :=
  inputs.filterMap (fun i =>
    match i with
    | ModalityInput.textInput r c =>
      some (ChatMsg.mk (if r == "" then "user" else r) c)
    | ModalityInput.audioInput _ => none)

/-- Step 1 of `Process`: the audio inputs. -/
def audioInputs (inputs : List ModalityInput) : List (List Nat) :=
  inputs.filterMap (fun i =>
    match i with
    | ModalityInput.audioInput d => some d
    | ModalityInput.textInput _ _ => none)

/-- The body of `Process` inside its `try`: transcribe the concatenated
audio (if any), append the non-empty transcript as a user message, build the
messages with the optional system prompt, short-circuit to `no_input`, else
stream the LLM and concatenate the non-empty deltas.  A raised exception is
`Except.error`. -/
def processBody (req : MultiModalRequest) (sid : String)
    (stt : Except String String) (llm : Except String (List String))
    (latency : Nat) : Except String MultiModalResponse := do
  let texts := textInputs req.inputs
  let audio := audioInputs req.inputs
  let r ←
    if audio.isEmpty then
      pure ("", texts)
    else do
      let t ← stt
      pure (t, texts ++ (if t == "" then [] else [ChatMsg.mk "user" t]))
  let messages :=
    (if req.config.system_prompt == "" then []
     else [ChatMsg.mk "system" req.config.system_prompt]) ++ r.2
  if messages.isEmpty || messages.all (fun m => m.role == "system") then
    pure { session_id := sid, outputs := [],
           metadata := { finish_reason := "no_input", latency_ms := latency } }
  else do
    let chunks ← llm
    let full := String.join (chunks.filter (fun d => !(d == "")))
    pure { session_id := sid,
           outputs := [{ content := full, role := "assistant" }],
           metadata := { finish_reason := "stop", transcribed_text := r.1,
                         latency_ms := latency } }

/-- `Process`: the `except Exception` handler maps any raised exception to
`outputs=[]`, `finish_reason="error"`, with the elapsed latency. -/
def Process (req : MultiModalRequest) (fresh : String)
    (stt : Except String String) (llm : Except String (List String))
    (latency : Nat) : MultiModalResponse :=
  match processBody req (effectiveSessionId req fresh) stt llm latency with
  | Except.ok r => r
  | Except.error _ =>
    { session_id := effectiveSessionId req fresh, outputs := [],
      metadata := { finish_reason := "error", latency_ms := latency } }

/-- C10: `Process` is total — for every request and every outcome of the
internal steps it returns a `MultiModalResponse`; when any internal step
raises, the response is `outputs=[]` with `finish_reason="error"` and a
latency value; otherwise it is exactly the try-block's result. -/
theorem process_total (req : MultiModalRequest) (fresh : String)
    (stt : Except String String) (llm : Except String (List String)) (latency : Nat) :
    (∀ e : String,
      processBody req (effectiveSessionId req fresh) stt llm latency = Except.error e →
      Process req fresh stt llm latency
        = { session_id := effectiveSessionId req fresh, outputs := [],
            metadata := { finish_reason := "error", transcribed_text := "",
                          latency_ms := latency } })
    ∧ (processBody req (effectiveSessionId req fresh) stt llm latency
          = Except.ok (Process req fresh stt llm latency)
        ∨ Process req fresh stt llm latency
          = { session_id := effectiveSessionId req fresh, outputs := [],
              metadata := { finish_reason := "error", transcribed_text := "",
                            latency_ms := latency } }) := by
  constructor
  · intro e he
    unfold Process
    rw [he]
  · unfold Process
    cases h : processBody req (effectiveSessionId req fresh) stt llm latency with
    | ok r => left; rfl
    | error e => right; rfl

/-- Witness for C10: a request whose only input is audio, with the one-shot
STT raising, yields the error-shaped response. -/
theorem process_total_witness :
    Process { session_id := "", config := {}, inputs := [ModalityInput.audioInput [0, 0]] }
        "mm_1" (Except.error "stt down") (Except.ok ["x"]) 5
      = { session_id := "mm_1", outputs := [],
          metadata := { finish_reason := "error", transcribed_text := "",
                        latency_ms := 5 } } :=
  (process_total { session_id := "", config := {}, inputs := [ModalityInput.audioInput [0, 0]] }
    "mm_1" (Except.error "stt down") (Except.ok ["x"]) 5).1 "stt down" rfl

/-! ## Session REST endpoint (src/server/http/routes/v1/sessions.py and
src/server/http/response.py)

`create_session` (the route handler) calls
`session_manager.create_session(...)`, but the `SessionManager` class
defines no attribute of that name — its methods are `start`, `stop`,
`create`, `get`, `get_active`, `close`, `delete`, `list`, `count`.  In
Python the call raises `AttributeError`, which is not a `RuntimeError`, so
it lands in the generic `except Exception` clause. -/

/-- The REST `ErrorCode` IntEnum. -/
inductive ErrorCode
  | SUCCESS
  | INVALID_PARAM
  | AUTH_FAILED
  | SESSION_NOT_FOUND
  | SESSION_EXPIRED
  | STT_ERROR
  | LLM_ERROR
  | TIMEOUT
  | RATE_LIMIT
  | QUOTA_EXCEEDED
  | INTERNAL_ERROR
deriving DecidableEq

/-- Numeric codes. -/
def ErrorCode.code : ErrorCode → Nat
  | ErrorCode.SUCCESS => 0
  | ErrorCode.INVALID_PARAM => 1001
  | ErrorCode.AUTH_FAILED => 1002
  | ErrorCode.SESSION_NOT_FOUND => 1003
  | ErrorCode.SESSION_EXPIRED => 1004
  | ErrorCode.STT_ERROR => 2001
  | ErrorCode.LLM_ERROR => 2002
  | ErrorCode.TIMEOUT => 2003
  | ErrorCode.RATE_LIMIT => 3001
  | ErrorCode.QUOTA_EXCEEDED => 3002
  | ErrorCode.INTERNAL_ERROR => 5000

/-- `HTTP_STATUS_MAP`. -/
def HTTP_STATUS_MAP : ErrorCode → Nat
  | ErrorCode.SUCCESS => 200
  | ErrorCode.INVALID_PARAM => 400
  | ErrorCode.AUTH_FAILED => 401
  | ErrorCode.SESSION_NOT_FOUND => 404
  | ErrorCode.SESSION_EXPIRED => 410
  | ErrorCode.STT_ERROR => 502
  | ErrorCode.LLM_ERROR => 502
  | ErrorCode.TIMEOUT => 504
  | ErrorCode.RATE_LIMIT => 429
  | ErrorCode.QUOTA_EXCEEDED => 429
  | ErrorCode.INTERNAL_ERROR => 500

/-- `ApiResponse.to_json_response()`: the envelope code plus the mapped HTTP
status. -/
structure JsonHttpResponse where
  code : Nat
  message : String
  http_status : Nat
deriving DecidableEq

/-- `error(code, message).to_json_response()` / `success(...)`. -/
def to_json_response (code : ErrorCode) (message : String) : JsonHttpResponse :=
  { code := code.code, message := message, http_status := HTTP_STATUS_MAP code }

/-- The attribute names the `SessionManager` class actually defines
(src/orchestrator/session.py). -/
def sessionManagerMethods : List String :=
  ["start", "stop", "create", "get", "get_active", "close", "delete", "list", "count"]

/-- `POST /api/v1/sessions` as written: looks up `create_session` on the
manager; were it present, a success would give 200 and a `RuntimeError`
capacity failure 429/3002 — but the lookup raises `AttributeError`, caught
by `except Exception`, giving 500/5000 and leaving the manager untouched. -/
def create_session_route (m : SessionManager) (client_id sid tid : String)
    (cfg : SessionConfig) (now : Nat) : JsonHttpResponse × SessionManager :=
  if sessionManagerMethods.contains "create_session" then
    match m.create client_id sid tid cfg now with
    | (Except.ok _, m') => (to_json_response ErrorCode.SUCCESS "success", m')
    | (Except.error e, m') => (to_json_response ErrorCode.QUOTA_EXCEEDED e, m')
  else
    (to_json_response ErrorCode.INTERNAL_ERROR
      "AttributeError: SessionManager object has no attribute create_session", m)

/-- C9 evaluated on the code as written: every `POST /api/v1/sessions`
request — including one with free capacity — returns envelope code 5000
with HTTP 500 (never 200, never 429/3002), and no session is created. -/
theorem create_session_route_always_500 :
    ∀ (m : SessionManager) (cid sid tid : String) (cfg : SessionConfig) (now : Nat),
      (create_session_route m cid sid tid cfg now).1.code = 5000
      ∧ (create_session_route m cid sid tid cfg now).1.http_status = 500
      ∧ (create_session_route m cid sid tid cfg now).2 = m := by
  intro m cid sid tid cfg now
  exact ⟨rfl, rfl, rfl⟩

end OmniAgent
